import Mathlib

/-!
Shallow embedding of the sources of the `google-file-system-architecture`
repository: `metadata.py`, `master.py`, `chunkserver.py`, `client.py`.

Modelling conventions:
* Python `dict`s (insertion-ordered, unique keys) are association lists
  `List (String × α)`; `alistGet?` is dict lookup, `alistInsert` is
  `d[k] = v` (update in place when the key is present, append otherwise).
* Python `bytes` / `bytearray` values are `List Nat`, one entry per byte.
* Wall-clock time (`time.time()`) is an explicit `now : Int` argument to
  each operation that reads the clock.
* `random.sample` is nondeterministic: operations that use it take the
  sampler as an explicit function parameter; `SampleOk` states the
  contract `random.sample` guarantees.  The hash-derived fresh chunk id
  produced by `GFSMaster._allocate_chunk` is likewise passed in.
* Exceptions raised by the Python code are modelled with `Except PyError`;
  statements executed before a raise keep their effects (in this code no
  state is ever mutated before any of the raises).
* Threads, locks, and the log-only heartbeat monitor / print statements
  have no effect on the data modelled here and are omitted.
-/

namespace GFS

/-- Exceptions that the embedded Python code can raise. -/
inductive PyError where
  | typeError
  | attributeError
  | keyError
  deriving DecidableEq

/-- Python dict lookup `d.get(k)`: the value at the first matching key. -/
def alistGet? {α : Type} : List (String × α) → String → Option α
  | [], _ => none
  | p :: rest, k => if p.1 = k then some p.2 else alistGet? rest k

/-- Python dict update `d[k] = v`: replace in place when the key is
present, append a new binding otherwise. -/
def alistInsert {α : Type} : List (String × α) → String → α → List (String × α)
  | [], k, v => [(k, v)]
  | p :: rest, k, v => if p.1 = k then (k, v) :: rest else p :: alistInsert rest k v

/-- Python `set.add` on a duplicate-free list of node ids.  The code never
observes the iteration order of these sets on any non-raising path. -/
def setAdd (s : List String) (x : String) : List String :=
  if x ∈ s then s else s ++ [x]

/-- From `metadata.py`: `ChunkMetadata`.  The declared field is
`chunk_handle`; there is no field named `chunk_id`. -/
structure ChunkMetadata where
  chunk_handle : String
  version : Nat
  locations : List String
  primary : Option String
  lease_expiry : Int
  deriving DecidableEq

/-- From `metadata.py`: `FileMetadata`.  The declared chunk-list field is
`chunk_handles`; there is no attribute named `chunk_ids`. -/
structure FileMetadata where
  filename : String
  chunk_handles : List String := []
  size : Nat := 0
  deriving DecidableEq

/-- From `master.py`: the per-chunkserver info dict
`{'id': ..., 'chunks': set(chunks)}`.  The `chunks` component is written at
registration and never read, so it is kept as the reported list. -/
structure NodeInfo where
  id : String
  chunks : List String
  deriving DecidableEq

/-- Modelled from the spec: `config.py` is not under `src/`.  Section 6 of
the spec names `replicationFactor` as a configuration constant and the
end-to-end scenario of section 8 fixes it at 3. -/
def REPLICATION_FACTOR : Nat := 3

/-- From `master.py`: the in-memory metadata of `GFSMaster`. -/
structure GFSMaster where
  file_registry : List (String × FileMetadata)
  chunk_metadata : List (String × ChunkMetadata)
  chunkservers : List (String × NodeInfo)
  last_heartbeat : List (String × Int)
  deriving DecidableEq

/-- `GFSMaster.__init__`: all four tables start empty. -/
def masterNew : GFSMaster := ⟨[], [], [], []⟩

/-- `GFSMaster.register_chunkserver(chunkserver_id, chunks)`: upsert the
node record, stamp its heartbeat, and add the node to the locations of
every reported chunk that already has a `ChunkMetadata` record. -/
def register_chunkserver (m : GFSMaster) (now : Int) (cs_id : String)
    (chunks : List String) : GFSMaster :=
  let m1 : GFSMaster :=
    { m with
      chunkservers := alistInsert m.chunkservers cs_id ⟨cs_id, chunks⟩,
      last_heartbeat := alistInsert m.last_heartbeat cs_id now }
  { m1 with
    chunk_metadata := chunks.foldl (fun cm chunk_id =>
      match alistGet? cm chunk_id with
      | some r => alistInsert cm chunk_id { r with locations := setAdd r.locations cs_id }
      | none => cm) m1.chunk_metadata }

/-- `GFSMaster.heartbeat(chunkserver_id)`: stamp the node's heartbeat. -/
def heartbeat (m : GFSMaster) (now : Int) (cs_id : String) : GFSMaster :=
  { m with last_heartbeat := alistInsert m.last_heartbeat cs_id now }

/-- `GFSMaster.create_file(filename)`: fail when the name is taken,
otherwise insert a fresh empty `FileMetadata`. -/
def create_file (m : GFSMaster) (filename : String) : Bool × GFSMaster :=
  match alistGet? m.file_registry filename with
  | some _ => (false, m)
  | none =>
    (true,
      { m with
        file_registry := alistInsert m.file_registry filename ⟨filename, [], 0⟩ })

/-- `GFSMaster._select_chunkservers(count)`: filter the registered node
ids down to those whose heartbeat is within 30 time units of now
(`last_heartbeat.get(cs_id, 0)` defaults to 0), then draw
`min count available.length` of them with the sampler. -/
def select_chunkservers (sample : List String → Nat → List String)
    (m : GFSMaster) (now : Int) (count : Nat) : List String :=
  let available := (m.chunkservers.map Prod.fst).filter
    (fun cs_id => decide (now - ((alistGet? m.last_heartbeat cs_id).getD 0) < 30))
  sample available (min count available.length)

/-- The dict returned by a successful allocation:
`{'chunk_id', 'locations', 'primary', 'version'}`.  (Unreachable in the
code as written: see `allocate_chunk_for_append`.) -/
structure AllocResult where
  chunk_id : String
  locations : List String
  primary : String
  version : Nat
  deriving DecidableEq

/-- `GFSMaster.allocate_chunk_for_append(filename)`.  Returns `ok none`
for an unknown file and when no live node is available.  Otherwise the
source constructs `ChunkMetadata(chunk_id=..., ...)`, which raises
`TypeError`: the dataclass in `metadata.py` declares the field
`chunk_handle` and has no `chunk_id` keyword parameter.  (Had it
succeeded, the next line `file_meta.chunk_ids.append(...)` would raise
`AttributeError`, since `FileMetadata` declares `chunk_handles`.)  No
master state has been mutated at the point of the raise, so the state is
returned unchanged. -/
def allocate_chunk_for_append (sample : List String → Nat → List String)
    (m : GFSMaster) (now : Int) (fresh_chunk_id : String) (filename : String) :
    Except PyError (Option AllocResult) × GFSMaster :=
  match alistGet? m.file_registry filename with
  | none => (Except.ok none, m)
  | some _ =>
    let _chunk_id := fresh_chunk_id
    let locations := select_chunkservers sample m now REPLICATION_FACTOR
    if locations.isEmpty then (Except.ok none, m)
    else (Except.error PyError.typeError, m)

/-- The dict `get_chunk_locations` would return.  (Unreachable in the
code as written.) -/
structure ChunkLocationResult where
  chunk_id : String
  locations : List String
  primary : Option String
  version : Nat
  deriving DecidableEq

/-- `GFSMaster.get_chunk_locations(filename, chunk_index)`: `ok none` for
an unknown file; for a known file the bounds check
`chunk_index >= len(file_meta.chunk_ids)` raises `AttributeError`
(`FileMetadata` declares `chunk_handles`, not `chunk_ids`) before the
index is ever compared.  No state is mutated. -/
def get_chunk_locations (m : GFSMaster) (filename : String) (chunk_index : Int) :
    Except PyError (Option ChunkLocationResult) :=
  match alistGet? m.file_registry filename with
  | none => Except.ok none
  | some _ =>
    let _idx := chunk_index
    Except.error PyError.attributeError

/-- The dict `get_file_info` would return.  (Unreachable in the code as
written.) -/
structure FileInfoResult where
  filename : String
  num_chunks : Nat
  size : Nat
  deriving DecidableEq

/-- `GFSMaster.get_file_info(filename)`: `ok none` for an unknown file;
for a known file `len(file_meta.chunk_ids)` raises `AttributeError`. -/
def get_file_info (m : GFSMaster) (filename : String) :
    Except PyError (Option FileInfoResult) :=
  match alistGet? m.file_registry filename with
  | none => Except.ok none
  | some _ => Except.error PyError.attributeError

/-- From `chunkserver.py`: the node-local state, `chunks` mapping chunk id
to byte buffer. -/
structure GFSChunkserver where
  chunkserver_id : String
  chunks : List (String × List Nat)
  deriving DecidableEq

/-- `GFSChunkserver.create_chunk(chunk_id, version)`: (re)initialize an
empty buffer for the id; the version argument is only printed. -/
def create_chunk (cs : GFSChunkserver) (chunk_id : String) (version : Nat) :
    GFSChunkserver :=
  let _v := version
  { cs with chunks := alistInsert cs.chunks chunk_id [] }

/-- `GFSChunkserver.append_data(chunk_id, data, offset)`: `false` when the
chunk is unknown locally; otherwise zero-fill up to `offset` when the
buffer is shorter, then either extend (`offset == len(chunk)`) or splice
the data in with the bytearray slice assignment
`chunk[offset:offset+len(data)] = data`. -/
def append_data (cs : GFSChunkserver) (chunk_id : String) (data : List Nat)
    (offset : Nat) : Bool × GFSChunkserver :=
  match alistGet? cs.chunks chunk_id with
  | none => (false, cs)
  | some chunk =>
    let chunk1 := if chunk.length < offset
      then chunk ++ List.replicate (offset - chunk.length) 0 else chunk
    let chunk2 := if offset = chunk1.length
      then chunk1 ++ data
      else chunk1.take offset ++ data ++ chunk1.drop (offset + data.length)
    (true, { cs with chunks := alistInsert cs.chunks chunk_id chunk2 })

/-- `GFSChunkserver.read_data(chunk_id, offset, length)`: `none` when the
chunk is unknown, otherwise the byte range
`[offset, min(offset+length, len(chunk)))`. -/
def read_data (cs : GFSChunkserver) (chunk_id : String) (offset len : Nat) :
    Option (List Nat) :=
  match alistGet? cs.chunks chunk_id with
  | none => none
  | some chunk =>
    let e := min (offset + len) chunk.length
    some ((chunk.take e).drop offset)

/-- The world a `GFSClient` acts on: the master plus the dict of
chunkserver objects handed to the client. -/
structure World where
  master : GFSMaster
  chunkservers : List (String × GFSChunkserver)
  deriving DecidableEq

/-- `GFSClient.append(filename, data)`.  On allocation failure it returns
`False`; an exception from the master propagates.  Were the allocation
ever to return a dict, the very next line `chunk_info['chunk_handle']`
would raise `KeyError` (the master returns the key `'chunk_id'`), still
before any `create_chunk` or `append_data` reaches any chunkserver. -/
def client_append (sample : List String → Nat → List String) (now : Int)
    (fresh_chunk_id : String) (w : World) (filename : String) (data : List Nat) :
    Except PyError Bool × World :=
  let _d := data
  match allocate_chunk_for_append sample w.master now fresh_chunk_id filename with
  | (Except.error e, m1) => (Except.error e, { w with master := m1 })
  | (Except.ok none, m1) => (Except.ok false, { w with master := m1 })
  | (Except.ok (some _), m1) => (Except.error PyError.keyError, { w with master := m1 })

/-- The contract of `random.sample(l, k)` for `k ≤ len(l)`: it returns
exactly `k` elements, all drawn from `l`. -/
structure SampleOk (sample : List String → Nat → List String) : Prop where
  length_eq : ∀ l k, k ≤ l.length → (sample l k).length = k
  mem_of : ∀ l k x, x ∈ sample l k → x ∈ l

/-- A deterministic sampler satisfying `SampleOk`, used to instantiate
concrete runs. -/
def sampleTake (l : List String) (k : Nat) : List String := l.take k

theorem sampleTake_ok : SampleOk sampleTake := by
  constructor
  · intro l k h
    simp [sampleTake, List.length_take, Nat.min_eq_left h]
  · intro l k x h
    exact List.take_subset k l h

/-- One invocation of a public coordinator operation, with its
environment inputs (clock reading, sampler, fresh chunk id) recorded in
the event. -/
inductive MasterOp where
  | register (now : Int) (cs_id : String) (chunks : List String)
  | hb (now : Int) (cs_id : String)
  | createFile (name : String)
  | alloc (sample : List String → Nat → List String) (now : Int)
      (fresh : String) (name : String)
  | locs (name : String) (idx : Int)
  | info (name : String)

/-- The coordinator state after one operation.  `get_chunk_locations` and
`get_file_info` read (or raise) without mutating, so they leave the state
as is. -/
def applyOp (m : GFSMaster) : MasterOp → GFSMaster
  | .register now cs chunks => register_chunkserver m now cs chunks
  | .hb now cs => heartbeat m now cs
  | .createFile name => (create_file m name).2
  | .alloc sample now fresh name => (allocate_chunk_for_append sample m now fresh name).2
  | .locs _ _ => m
  | .info _ => m

/-- The coordinator state reached by a sequence of public operations from
a fresh master. -/
def run (ops : List MasterOp) : GFSMaster := ops.foldl applyOp masterNew

/-- Every chunk id in any file's chunk sequence has a record in the chunk
table. -/
def chunkSeqClosed (m : GFSMaster) : Bool :=
  m.file_registry.all (fun p =>
    p.2.chunk_handles.all (fun cid => (alistGet? m.chunk_metadata cid).isSome))

theorem alistGet?_insert_self {α : Type} (l : List (String × α)) (k : String)
    (v : α) : alistGet? (alistInsert l k v) k = some v := by
  induction l with
  | nil => simp [alistInsert, alistGet?]
  | cons p rest ih =>
    by_cases h : p.1 = k
    · simp [alistInsert, h, alistGet?]
    · simp [alistInsert, h, alistGet?, ih]

theorem alistInsert_insert_self {α : Type} (l : List (String × α)) (k : String)
    (v w : α) : alistInsert (alistInsert l k v) k w = alistInsert l k w := by
  induction l with
  | nil => simp [alistInsert]
  | cons p rest ih =>
    by_cases h : p.1 = k
    · simp [alistInsert, h]
    · simp [alistInsert, h, ih]

theorem mem_alistInsert {α : Type} (l : List (String × α)) (k : String) (v : α)
    (q : String × α) : q ∈ alistInsert l k v → q = (k, v) ∨ q ∈ l := by
  induction l with
  | nil => intro h; simpa [alistInsert] using h
  | cons p rest ih =>
    intro h
    by_cases hp : p.1 = k
    · simp only [alistInsert, if_pos hp, List.mem_cons] at h
      rcases h with h | h
      · exact Or.inl h
      · exact Or.inr (List.mem_cons_of_mem _ h)
    · simp only [alistInsert, if_neg hp, List.mem_cons] at h
      rcases h with h | h
      · exact Or.inr (by simp [h])
      · rcases ih h with h1 | h1
        · exact Or.inl h1
        · exact Or.inr (List.mem_cons_of_mem _ h1)

/-- On every input, `allocate_chunk_for_append` leaves the master state
unchanged: both failure branches return the state as received, and the
would-be success branch raises before mutating anything. -/
theorem allocate_snd (sample : List String → Nat → List String) (m : GFSMaster)
    (now : Int) (fresh f : String) :
    (allocate_chunk_for_append sample m now fresh f).2 = m := by
  unfold allocate_chunk_for_append
  cases alistGet? m.file_registry f with
  | none => rfl
  | some _ =>
    simp only []
    split <;> rfl

/-- Auxiliary invariant: every registered file has an empty chunk
sequence and the chunk table is empty.  This is the (degenerate) shape of
every reachable coordinator state: the only operation that would add a
chunk record or extend a chunk sequence raises before mutating. -/
def regAllEmpty (m : GFSMaster) : Prop :=
  (∀ p ∈ m.file_registry, p.2.chunk_handles = ([] : List String)) ∧
    m.chunk_metadata = []

theorem register_foldl_nil (cs_id : String) (chunks : List String) :
    chunks.foldl (fun cm chunk_id =>
      match alistGet? cm chunk_id with
      | some r => alistInsert cm chunk_id { r with locations := setAdd r.locations cs_id }
      | none => cm) ([] : List (String × ChunkMetadata)) = [] := by
  induction chunks with
  | nil => rfl
  | cons c rest ih => simpa [alistGet?] using ih

theorem applyOp_preserves (m : GFSMaster) (op : MasterOp)
    (h : regAllEmpty m) : regAllEmpty (applyOp m op) := by
  cases op with
  | register now cs chunks =>
    refine ⟨h.1, ?_⟩
    simp only [applyOp, register_chunkserver, h.2]
    exact register_foldl_nil cs chunks
  | hb now cs => exact ⟨h.1, h.2⟩
  | createFile name =>
    simp only [applyOp, create_file]
    cases hg : alistGet? m.file_registry name with
    | some _ => exact h
    | none =>
      refine ⟨?_, h.2⟩
      intro p hp
      rcases mem_alistInsert _ _ _ _ hp with h1 | h1
      · rw [h1]
      · exact h.1 p h1
  | alloc sample now fresh name =>
    simpa only [applyOp, allocate_snd] using h
  | locs name idx => exact h
  | info name => exact h

theorem run_regAllEmpty (ops : List MasterOp) : regAllEmpty (run ops) := by
  have main : ∀ (l : List MasterOp) (m : GFSMaster),
      regAllEmpty m → regAllEmpty (l.foldl applyOp m) := by
    intro l
    induction l with
    | nil => intro m hm; exact hm
    | cons op rest ih =>
      intro m hm
      exact ih (applyOp m op) (applyOp_preserves m op hm)
  exact main ops masterNew ⟨fun p hp => (nomatch hp), rfl⟩

/-- ASCII byte values of a Python byte-string literal. -/
def bytesOf (s : String) : List Nat := s.toList.map Char.toNat

/-- A master with one chunkserver registered at time 0 and one file
`"f"`. -/
def mOneNode : GFSMaster :=
  (create_file (register_chunkserver masterNew 0 "cs1" []) "f").2

/-- The cluster of `demo.py` just before the file is created: three
chunkservers registered (each registers itself on construction, reporting
no chunks). -/
def mDemo0 : GFSMaster :=
  register_chunkserver (register_chunkserver
    (register_chunkserver masterNew 0 "chunkserver-1" [])
    0 "chunkserver-2" []) 0 "chunkserver-3" []

/-- The demo cluster after `client.create("/data/logs.txt")`. -/
def mDemo : GFSMaster := (create_file mDemo0 "/data/logs.txt").2

/-- The demo world as the client sees it: the master plus the three
freshly constructed chunkservers. -/
def wDemo : World :=
  { master := mDemo,
    chunkservers :=
      [("chunkserver-1", ⟨"chunkserver-1", []⟩),
       ("chunkserver-2", ⟨"chunkserver-2", []⟩),
       ("chunkserver-3", ⟨"chunkserver-3", []⟩)] }

/-- Claim C1: the claim states that `allocateChunkForAppend` on a known
file with at least one live node succeeds and returns the new chunk's id,
locations, primary and version.  In the source the call instead raises
`TypeError` (the `ChunkMetadata` dataclass declares `chunk_handle`, but
the constructor is invoked with the keyword `chunk_id`), leaving the
master unchanged. -/
theorem allocate_live_node_raises :
    allocate_chunk_for_append sampleTake mOneNode 0 "c0" "f" =
      (Except.error PyError.typeError, mOneNode) := by rfl

/-- Claim C2: the claim states the demo scenario (create
`/data/logs.txt`, three appends, then read) returns the concatenation of
the three byte strings.  In the source the create succeeds but already
the first append raises `TypeError` inside `allocate_chunk_for_append`,
and `read`'s first step `get_file_info` raises `AttributeError` on the
created file, so the scenario cannot produce any bytes. -/
theorem demo_first_append_raises :
    (create_file mDemo0 "/data/logs.txt").1 = true ∧
    client_append sampleTake 0 "chunk-a" wDemo "/data/logs.txt"
        (bytesOf "First log entry\n") = (Except.error PyError.typeError, wDemo) ∧
    get_file_info mDemo "/data/logs.txt" = Except.error PyError.attributeError :=
  ⟨rfl, rfl, rfl⟩

/-- Claim C3: once `create(f)` has succeeded, a second `create(f)`
returns the failure indicator and leaves the whole coordinator state
(including the first file's record) unchanged. -/
theorem create_file_second_fails (m : GFSMaster) (f : String)
    (h : (create_file m f).1 = true) :
    create_file (create_file m f).2 f = (false, (create_file m f).2) := by
  cases hm : alistGet? m.file_registry f with
  | some v => simp [create_file, hm] at h
  | none => simp [create_file, hm, alistGet?_insert_self]

/-- Witness for C3 at the concrete file name `"a"` on a fresh master. -/
theorem create_file_second_fails_witness :
    create_file (create_file masterNew "a").2 "a" =
      (false, (create_file masterNew "a").2) :=
  create_file_second_fails masterNew "a" (by rfl)

/-- Claim C4: `allocateChunkForAppend` returns the failure result (`None`)
when the file name is unknown, and also when no registered node has a
heartbeat within 30 time units of now. -/
theorem allocate_failure_cases (sample : List String → Nat → List String)
    (hs : SampleOk sample) (m : GFSMaster) (now : Int) (fresh f : String) :
    (alistGet? m.file_registry f = none →
      allocate_chunk_for_append sample m now fresh f = (Except.ok none, m)) ∧
    ((∀ cs ∈ m.chunkservers.map Prod.fst,
        ¬ (now - ((alistGet? m.last_heartbeat cs).getD 0) < 30)) →
      allocate_chunk_for_append sample m now fresh f = (Except.ok none, m)) := by
  constructor
  · intro h
    simp [allocate_chunk_for_append, h]
  · intro h
    cases hg : alistGet? m.file_registry f with
    | none => simp [allocate_chunk_for_append, hg]
    | some v =>
      have havail : (m.chunkservers.map Prod.fst).filter
          (fun cs_id =>
            decide (now - ((alistGet? m.last_heartbeat cs_id).getD 0) < 30)) = [] := by
        rw [List.filter_eq_nil_iff]
        intro a ha
        simpa using h a ha
      have hsel : select_chunkservers sample m now REPLICATION_FACTOR = [] := by
        unfold select_chunkservers
        rw [havail]
        have h0 : (sample [] 0).length = 0 := hs.length_eq [] 0 (by simp)
        simpa using List.eq_nil_of_length_eq_zero h0
      simp [allocate_chunk_for_append, hg, hsel]

/-- Witness for C4: an unknown file on a fresh master, and a master whose
only node last heartbeated 100 time units before the call. -/
theorem allocate_failure_cases_witness :
    (allocate_chunk_for_append sampleTake masterNew 0 "c" "nofile" =
      (Except.ok none, masterNew)) ∧
    (allocate_chunk_for_append sampleTake mOneNode 100 "c" "f" =
      (Except.ok none, mOneNode)) :=
  ⟨(allocate_failure_cases sampleTake sampleTake_ok masterNew 0 "c" "nofile").1 (by rfl),
   (allocate_failure_cases sampleTake sampleTake_ok mOneNode 100 "c" "f").2 (by decide)⟩

/-- The buffer `appendData` is specified to produce on a known chunk, in
the words of the spec: when `offset` exceeds the current length the gap is
zero-filled up to `offset`, then `data` is written starting at `offset`,
extending the buffer when the write reaches past the end and overwriting
in place when it lies within bounds. -/
def appendDataSpecBuf (buf data : List Nat) (offset : Nat) : List Nat :=
  let padded := if buf.length < offset
    then buf ++ List.replicate (offset - buf.length) 0 else buf
  padded.take offset ++ data ++ padded.drop (offset + data.length)

theorem splice_eq (c1 data : List Nat) (offset : Nat) :
    (if offset = c1.length then c1 ++ data
     else c1.take offset ++ data ++ c1.drop (offset + data.length)) =
    c1.take offset ++ data ++ c1.drop (offset + data.length) := by
  by_cases he : offset = c1.length
  · rw [if_pos he, he, List.take_length,
      List.drop_eq_nil_of_le (Nat.le_add_right _ _), List.append_nil]
  · rw [if_neg he]

/-- Claim C5: `appendData(chunkId, data, offset)` returns `false` and
leaves the node unchanged when the chunk is unknown locally; otherwise it
returns `true` and replaces the chunk's buffer with the zero-filled /
spliced result described by `appendDataSpecBuf`. -/
theorem append_data_ok (cs : GFSChunkserver) (cid : String) (data : List Nat)
    (offset : Nat) :
    (alistGet? cs.chunks cid = none →
      append_data cs cid data offset = (false, cs)) ∧
    (∀ buf, alistGet? cs.chunks cid = some buf →
      append_data cs cid data offset =
        (true,
          { cs with
            chunks := alistInsert cs.chunks cid (appendDataSpecBuf buf data offset) })) := by
  constructor
  · intro h
    simp [append_data, h]
  · intro buf h
    have key := splice_eq (if buf.length < offset
      then buf ++ List.replicate (offset - buf.length) 0 else buf) data offset
    simp only [append_data, h, appendDataSpecBuf]
    rw [key]

/-- Witness for C5: an unknown chunk on an empty node, and an append at
offset 5 into a two-byte buffer (zero-filling bytes 2..4). -/
theorem append_data_ok_witness :
    (append_data ⟨"cs1", []⟩ "ck" [7, 8] 0 = (false, ⟨"cs1", []⟩)) ∧
    (append_data ⟨"cs1", [("ck", [1, 2])]⟩ "ck" [7, 8] 5 =
      (true, ⟨"cs1", [("ck", appendDataSpecBuf [1, 2] [7, 8] 5)]⟩)) :=
  ⟨(append_data_ok ⟨"cs1", []⟩ "ck" [7, 8] 0).1 (by rfl),
   (append_data_ok ⟨"cs1", [("ck", [1, 2])]⟩ "ck" [7, 8] 5).2 [1, 2] (by rfl)⟩

/-- Claim C6: `createChunk(id, v)` resets the chunk's buffer to empty,
also when a buffer for `id` already exists, and calling it twice in a row
leaves exactly the state of calling it once. -/
theorem create_chunk_reset_idem (cs : GFSChunkserver) (cid : String) (v : Nat) :
    alistGet? (create_chunk cs cid v).chunks cid = some [] ∧
    create_chunk (create_chunk cs cid v) cid v = create_chunk cs cid v := by
  constructor
  · simp [create_chunk, alistGet?_insert_self]
  · simp [create_chunk, alistInsert_insert_self]

/-- Claim C7: the claim states that within one `append` call the
primary's `appendData` completes before any secondary is touched, and
that a primary failure aborts the call with a failure return.  In the
source no `appendData` (and no `create_chunk`) ever reaches any node: the
call raises `TypeError` during chunk allocation (and the client would
raise `KeyError` on `chunk_info['chunk_handle']` even if allocation
returned), so the whole world, including every chunkserver buffer, is
left untouched and no failure indicator is returned. -/
theorem client_append_reaches_no_node :
    (client_append sampleTake 0 "chunk-a" wDemo "/data/logs.txt"
        (bytesOf "payload")).1 = Except.error PyError.typeError ∧
    (client_append sampleTake 0 "chunk-a" wDemo "/data/logs.txt"
        (bytesOf "payload")).2.chunkservers = wDemo.chunkservers :=
  ⟨rfl, rfl⟩

/-- Claim C8: the claim states `getChunkLocations` returns a not-found
result when the index is out of range (index 0 of an empty chunk
sequence included).  In the source only the unknown-file branch behaves
that way; for any known file the bounds check reads the nonexistent
attribute `chunk_ids` and raises `AttributeError`. -/
theorem get_chunk_locations_known_file_raises :
    get_chunk_locations (create_file masterNew "f").2 "f" 0 =
      Except.error PyError.attributeError ∧
    get_chunk_locations masterNew "f" 0 = Except.ok none :=
  ⟨rfl, rfl⟩

/-- Claim C9: in every coordinator state reachable by public operations,
every chunk id in any file's `chunkSequence` has a record in the chunk
table.  (In this code the property holds degenerately: the only operation
that could extend a chunk sequence raises before mutating, so all chunk
sequences stay empty — see C1.) -/
theorem chunkSeq_closed_reachable (ops : List MasterOp) :
    chunkSeqClosed (run ops) = true := by
  have h := run_regAllEmpty ops
  unfold chunkSeqClosed
  rw [List.all_eq_true]
  intro p hp
  rw [List.all_eq_true]
  intro cid hcid
  rw [h.1 p hp] at hcid
  cases hcid

/-- Claim C10: whenever `allocateChunkForAppend` returns the failure
result `None` (unknown file, or no live node), the coordinator state is
left entirely unchanged, even though in the no-live-node case the fresh
chunk id was already generated. -/
theorem allocate_failure_state_unchanged (sample : List String → Nat → List String)
    (m : GFSMaster) (now : Int) (fresh f : String)
    (_h : (allocate_chunk_for_append sample m now fresh f).1 = Except.ok none) :
    (allocate_chunk_for_append sample m now fresh f).2 = m :=
  allocate_snd sample m now fresh f

/-- Witness for C10: allocation for an unknown file on a fresh master. -/
theorem allocate_failure_state_unchanged_witness :
    (allocate_chunk_for_append sampleTake masterNew 5 "c9" "nofile").1 =
        Except.ok none ∧
    (allocate_chunk_for_append sampleTake masterNew 5 "c9" "nofile").2 =
        masterNew :=
  ⟨rfl, allocate_failure_state_unchanged sampleTake masterNew 5 "c9" "nofile" rfl⟩

end GFS
